import Mathlib

/-!
Shallow embedding of the Jumbo Homes internal dashboard (`src/app.py`).

Tables are lists of records; pandas timestamps are modelled as a calendar
day (`Int`) together with a time-of-day (`Nat`), ordered lexicographically,
so that `.dt.date` is the `day` projection.  A missing value (`NaN`/`NaT`)
is `none`, and — as in pandas — every comparison against a missing value is
false.  Series produced by `groupby(...).size()` are association lists, and
`Series.get` is modelled by `seriesGet`, which can return a sub-series when
the (re-assigned) index holds duplicate labels, mirroring pandas.
-/

namespace Jumbo

/-- A pandas timestamp: calendar day plus time-of-day, ordered lexicographically.
`.dt.date` is the `day` field. -/
structure Ts where
  day : Int
  tod : Nat
deriving DecidableEq, Repr

/-- `a <= b` on timestamps. -/
def tsLe (a b : Ts) : Bool :=
  a.day < b.day || (a.day == b.day && a.tod ≤ b.tod)

/-- `a < b` on timestamps. -/
def tsLt (a b : Ts) : Bool :=
  a.day < b.day || (a.day == b.day && a.tod < b.tod)

/-- `(d >= s) & (d <= e)` on a possibly missing timestamp: comparisons with
`NaT` are false, so a missing date never passes the filter. -/
def inRange (d : Option Ts) (s e : Ts) : Bool :=
  match d with
  | none => false
  | some t => tsLe s t && tsLe t e

/-- `d < s` on a possibly missing timestamp (`NaT` compares false). -/
def beforeStart (d : Option Ts) (s : Ts) : Bool :=
  match d with
  | none => false
  | some t => tsLt t s

/-- A row of `Visits.csv` after the preprocessing in `load_all_data`. -/
structure Visit where
  leadPhone : Option String
  scheduledDate : Option Ts
  visitStatus : Option String
  visitCompleted : Bool
  leadOwner : Option String
  vaName : Option String
  homesVisited : Option String
deriving DecidableEq, Repr

/-- A row of `home_inspection.csv`. -/
structure Inspection where
  inspectedOn : Option Ts
  inspectedBy : Option String
deriving DecidableEq, Repr

/-- A row of `Admins.csv`. -/
structure Admin where
  email : String
  firstName : String
deriving DecidableEq, Repr

/-- A row of `Owners.csv`. -/
structure Owner where
  createdOn : Option Ts
deriving DecidableEq, Repr

/-- A row of `Buyers.csv`. -/
structure Buyer where
  createdOn : Option Ts
  contactPhone : Option String
deriving DecidableEq, Repr

/-- A row of `Homes.csv`. -/
structure Home where
  createdOn : Option Ts
  offboardingAt : Option Ts
  internalStatus : Option String
  askPrice : Option ℚ
deriving DecidableEq, Repr

/-- A row of `home_catalogue.csv` (only the floor-plan media link matters). -/
structure CatalogueRow where
  mediaFloorPlan : Option String
deriving DecidableEq, Repr

/-- A row of `price-history-new.csv`. -/
structure PriceRow where
  date : Option Ts
deriving DecidableEq, Repr

/-- A row of `offers.csv`. -/
structure OfferRow where
  offerDate : Option Ts
deriving DecidableEq, Repr

/-! ### String helpers: Python's `strip`, `lower` and substring test -/

/-- Python whitespace, as stripped by `str.strip()`. -/
def isSpaceChar (c : Char) : Bool :=
  c == ' ' || c == '\t' || c == '\n' || c == '\r' || c == '\x0b' || c == '\x0c'

/-- Python `str.strip()`. -/
def pyStrip (s : String) : String :=
  String.mk (((s.toList.dropWhile isSpaceChar).reverse.dropWhile isSpaceChar).reverse)

/-- Python `str.lower()` (ASCII letters, which covers the data in play). -/
def pyLower (s : String) : String :=
  String.mk (s.toList.map Char.toLower)

/-- `str(val).strip().lower()`, the normalisation `get_name` applies to its input. -/
def lowerTrim (s : String) : String :=
  pyLower (pyStrip s)

/-- Does `pat` match at the head of `hay`? -/
def leadMatch : List Char → List Char → Bool
  | [], _ => true
  | _ :: _, [] => false
  | a :: ps, b :: hs => a == b && leadMatch ps hs

/-- Does `pat` occur somewhere in `hay`? -/
def hasSub (hay pat : List Char) : Bool :=
  match hay with
  | [] => pat.isEmpty
  | _ :: t => leadMatch pat hay || hasSub t pat

/-- Python's `pat in hay` on strings. -/
def strContainsSub (hay pat : String) : Bool :=
  hasSub hay.toList pat.toList

/-! ### `email_to_name` and `get_name` (app.py lines 64–70) -/

/-- One `d[k] = v` step of Python dict building: an existing key keeps its
position and takes the new value, a new key is appended. -/
def dictUpsert (m : List (String × String)) (k v : String) : List (String × String) :=
  if m.any (fun p => p.1 == k) then
    m.map (fun p => if p.1 == k then (p.1, v) else p)
  else
    m ++ [(k, v)]

/-- `admins.set_index('Email')['First Name'].to_dict()`: a Python dict from
email to first name, later rows overwriting earlier ones. -/
def emailToName (admins : List Admin) : List (String × String) :=
  admins.foldl (fun m a => dictUpsert m a.email a.firstName) []

/-- The loop body of `get_name` on a present value: the first dict entry whose
lowercased email equals the stripped-lowercased value wins; otherwise the
value itself is returned. -/
def getNameStr (m : List (String × String)) (s : String) : String :=
  match m.find? (fun p => pyLower p.1 == lowerTrim s) with
  | some p => p.2
  | none => s

/-- `get_name` (app.py lines 65–70): `"Unknown"` on a missing value, else
`getNameStr`. -/
def getName (m : List (String × String)) (val : Option String) : String :=
  match val with
  | none => "Unknown"
  | some s => getNameStr m s

/-! ### Period filters (app.py lines 95–97) -/

/-- `cv`: visits whose `Scheduled Date` lies in the closed period. -/
def cvOf (visits : List Visit) (s e : Ts) : List Visit :=
  visits.filter (fun v => inRange v.scheduledDate s e)

/-- `cv_comp`: the subset of `cv` with visit status `🏁 Completed`. -/
def cvCompOf (cv : List Visit) : List Visit :=
  cv.filter (fun v => v.visitStatus == some "🏁 Completed")

/-- `ci`: inspections whose `Inspected On` lies in the closed period. -/
def ciOf (inspections : List Inspection) (s e : Ts) : List Inspection :=
  inspections.filter (fun i => inRange i.inspectedOn s e)

/-! ### Leaderboard point calculation (app.py lines 100–124) -/

/-- The distinct non-missing lead phones of a visit list
(`groupby('Lead Phone')` drops missing keys). -/
def distinctPhones (l : List Visit) : List String :=
  (l.filterMap (fun v => v.leadPhone)).dedup

/-- The group of a phone inside `cv_comp`, in original row order. -/
def groupOf (cvComp : List Visit) (ph : String) : List Visit :=
  cvComp.filter (fun v => v.leadPhone == some ph)

/-- `group['Scheduled Date'].dt.date` deduplicated: the distinct calendar
days of the group. -/
def groupDates (g : List Visit) : List Int :=
  ((g.filterMap (fun v => v.scheduledDate)).map (fun t => t.day)).dedup

/-- `past`: all visits of the phone scheduled strictly before the period with
`Status/Visit Completed == True` (app.py line 104). -/
def pastCompleted (visits : List Visit) (s : Ts) (ph : String) : List Visit :=
  visits.filter (fun v =>
    v.leadPhone == some ph && beforeStart v.scheduledDate s && v.visitCompleted)

/-- `is_rv` (app.py line 105): a past completed visit exists, or the group's
completed visits fall on more than one calendar day. -/
def isRv (visits cvComp : List Visit) (s : Ts) (ph : String) : Bool :=
  !(pastCompleted visits s ph).isEmpty
    || decide (1 < (groupDates (groupOf cvComp ph)).length)

/-- The resolved owner of a phone group: `get_name` of the first row's
`Internal/LeadOwner`. -/
def ownerOf (m : List (String × String)) (cvComp : List Visit) (ph : String) : String :=
  getName m ((groupOf cvComp ph).head?.bind (fun v => v.leadOwner))

/-- `lo_data` (app.py lines 100–106): one `(Person, Pts)` entry per phone group. -/
def loData (m : List (String × String)) (visits cvComp : List Visit) (s : Ts) :
    List (String × Int) :=
  (distinctPhones cvComp).map (fun ph =>
    (ownerOf m cvComp ph, if isRv visits cvComp s ph then 7 else 3))

/-- `lo_pts.get(p, 0)`: the summed points of the entries of `lo_data` whose
person is `p` (the groupby index is unique, so `get` is a plain lookup-sum). -/
def loPts (m : List (String × String)) (visits cvComp : List Visit) (s : Ts)
    (p : String) : Int :=
  (((loData m visits cvComp s).filter (fun x => x.1 == p)).map (fun x => x.2)).sum

/-- `va_pts.get(p, 0)`: four points per completed visit whose `WA_Msg/VA_Name`
is exactly `p`. -/
def vaPts (cvComp : List Visit) (p : String) : Int :=
  4 * (cvComp.countP (fun v => v.vaName == some p) : Int)

/-- A pandas value that is either a scalar or a sub-series (what `Series.get`
yields on an index with duplicate labels). -/
inductive PdVal where
  | scalar (v : Int)
  | sub (vs : List Int)
deriving DecidableEq, Repr

/-- pandas addition between such values: scalars add, a scalar broadcasts
over a sub-series. -/
def pdAdd : PdVal → PdVal → PdVal
  | .scalar a, .scalar b => .scalar (a + b)
  | .scalar a, .sub vs => .sub (vs.map (fun v => a + v))
  | .sub vs, .scalar b => .sub (vs.map (fun v => v + b))
  | .sub vs, .sub ws => .sub (vs.zipWith (fun a b => a + b) ws)

/-- The distinct non-missing `Inspected By` values of the period's inspections
(the groupby keys). -/
def insRaws (ci : List Inspection) : List String :=
  (ci.filterMap (fun i => i.inspectedBy)).dedup

/-- `ins_pts` after line 111: `ci.groupby('Inspected By').size() * 4` with the
index re-assigned through `get_name`. The re-assignment can create duplicate
labels. -/
def insSeries (m : List (String × String)) (ci : List Inspection) :
    List (String × Int) :=
  (insRaws ci).map (fun r =>
    (getNameStr m r, 4 * (ci.countP (fun i => i.inspectedBy == some r) : Int)))

/-- `Series.get(k, d)` over an association list: the default when no label
matches, the value when exactly one does, a sub-series when several do. -/
def pdOfMatches (l : List (String × Int)) (d : Int) : PdVal :=
  match l with
  | [] => .scalar d
  | [x] => .scalar x.2
  | l => .sub (l.map (fun x => x.2))

/-- `Series.get` itself. -/
def seriesGet (sr : List (String × Int)) (k : String) (d : Int) : PdVal :=
  pdOfMatches (sr.filter (fun x => x.1 == k)) d

/-- `admins['First Name'].unique()` as a set of names. -/
def firstNamesU (admins : List Admin) : List String :=
  (admins.map (fun a => a.firstName)).dedup

/-- One manual override: `(t * tour_pts) + (r * rating_pts)` (app.py line 88). -/
def manualEntry (tourPts ratingPts : Int) (tours ratings : String → Nat)
    (p : String) : Int :=
  (tours p : Int) * tourPts + (ratings p : Int) * ratingPts

/-- `manual_entries.get(p, 0)`: the dict holds exactly the unique admin first
names. -/
def manualGet (admins : List Admin) (tourPts ratingPts : Int)
    (tours ratings : String → Nat) (p : String) : Int :=
  if p ∈ firstNamesU admins then manualEntry tourPts ratingPts tours ratings p else 0

/-- `"Total Score"` of person `p` (app.py line 117):
`lo_pts.get(p,0) + va_pts.get(p,0) + ins_pts.get(p,0) + manual_entries.get(p,0)`. -/
def totalScore (m : List (String × String)) (visits cvComp : List Visit)
    (ci : List Inspection) (s : Ts) (admins : List Admin)
    (tourPts ratingPts : Int) (tours ratings : String → Nat) (p : String) : PdVal :=
  pdAdd
    (pdAdd
      (pdAdd (PdVal.scalar (loPts m visits cvComp s p))
        (PdVal.scalar (vaPts cvComp p)))
      (seriesGet (insSeries m ci) p 0))
    (PdVal.scalar (manualGet admins tourPts ratingPts tours ratings p))

/-- A leaderboard row (app.py lines 115–122). -/
structure Row where
  person : String
  total : PdVal
  scheduled : Nat
  completed : Nat
  visitsManaged : Nat
  inspections : Nat
deriving DecidableEq, Repr

/-- The manual inputs of the Admin tab. -/
structure ManualInputs where
  tourPts : Int
  ratingPts : Int
  tours : String → Nat
  ratings : String → Nat

/-- The nine loaded tables. -/
structure Tables where
  owners : List Owner
  visits : List Visit
  buyers : List Buyer
  inspections : List Inspection
  homes : List Home
  catalogue : List CatalogueRow
  priceHist : List PriceRow
  offers : List OfferRow
  admins : List Admin

/-- The rows appended in the `for p in admins['First Name'].unique()` loop
(app.py lines 113–122). -/
def leaderboardRows (t : Tables) (mi : ManualInputs) (s e : Ts) : List Row :=
  let m := emailToName t.admins
  let cv := cvOf t.visits s e
  let cvComp := cvCompOf cv
  let ci := ciOf t.inspections s e
  (firstNamesU t.admins).map (fun p =>
    { person := p
      total := totalScore m t.visits cvComp ci s t.admins
        mi.tourPts mi.ratingPts mi.tours mi.ratings p
      scheduled := cv.countP (fun v => getName m v.leadOwner == p)
      completed := cvComp.countP (fun v => getName m v.leadOwner == p)
      visitsManaged := cvComp.countP (fun v => v.vaName == some p)
      inspections := ci.countP (fun i => getName m i.inspectedBy == p) })

/-! ### Supply tab (app.py lines 130–142) -/

/-- The supply funnel metrics. -/
structure SupplyOut where
  cLeads : Nat
  pLeads : Nat
  hOn : Nat
  pHOn : Nat
  regret : ℚ
deriving DecidableEq, Repr

/-- `Regrettable Loss`: asking prices of homes offboarded in the period whose
status is `On Hold` or `Sold` (`to_numeric(..., errors='coerce').sum()` skips
missing prices). -/
def regrettableLoss (homes : List Home) (s e : Ts) : ℚ :=
  (((homes.filter (fun h => inRange h.offboardingAt s e)).filter (fun h =>
      h.internalStatus == some "On Hold" || h.internalStatus == some "Sold")).filterMap
    (fun h => h.askPrice)).sum

/-- The supply tab's numbers. -/
def supplyOut (t : Tables) (s e ps pe : Ts) : SupplyOut :=
  { cLeads := (t.owners.filter (fun o => inRange o.createdOn s e)).length
    pLeads := (t.owners.filter (fun o => inRange o.createdOn ps pe)).length
    hOn := (t.homes.filter (fun h => inRange h.createdOn s e)).length
    pHOn := (t.homes.filter (fun h => inRange h.createdOn ps pe)).length
    regret := regrettableLoss t.homes s e }

/-! ### SKU tab (app.py lines 149–157) -/

/-- `has_floor_plan` (app.py line 40): the media field is present and contains
`https`. -/
def hasFloorPlan (c : CatalogueRow) : Bool :=
  match c.mediaFloorPlan with
  | none => false
  | some s => strContainsSub s "https"

/-- `live_count`: homes whose `Internal/Status` is `Live`. -/
def liveCount (homes : List Home) : Nat :=
  homes.countP (fun h => h.internalStatus == some "Live")

/-- `fp_count`: catalogue rows with a floor plan. -/
def fpCount (catalogue : List CatalogueRow) : Nat :=
  catalogue.countP hasFloorPlan

/-- One-decimal rounding, `round(x, 1)` over exact rationals. -/
def roundTo1 (q : ℚ) : ℚ :=
  ((round (q * 10) : ℤ) : ℚ) / 10

/-- The percentage shown next to `Verified Floor Plans` (app.py line 153):
`round(fp_count / max(live_count, 1) * 100, 1)`. -/
def fpPctDisplay (homes : List Home) (catalogue : List CatalogueRow) : ℚ :=
  roundTo1 ((fpCount catalogue : ℚ) / ((max (liveCount homes) 1 : ℕ) : ℚ) * 100)

/-- `Project` derived at load time: `Homes_Visited.split('_')[0]`, missing when
the source field is missing. -/
def projectOf (v : Visit) : Option String :=
  v.homesVisited.map (fun s => String.mk (s.toList.takeWhile (fun c => c != '_')))

/-- Insert into a list kept in descending count order. -/
def insertByCount (x : String × Nat) : List (String × Nat) → List (String × Nat)
  | [] => [x]
  | y :: t => if y.2 ≤ x.2 then x :: y :: t else y :: insertByCount x t

/-- `cv.groupby('Project').size().sort_values(ascending=False).head(10)`. -/
def topProjects (cv : List Visit) : List (String × Nat) :=
  (((cv.filterMap projectOf).dedup.map (fun pr =>
      (pr, cv.countP (fun v => projectOf v == some pr)))).foldr insertByCount []).take 10

/-- The SKU tab's numbers. -/
structure SkuOut where
  live : Nat
  fp : Nat
  fpPct : ℚ
  top : List (String × Nat)
deriving DecidableEq, Repr

/-- The SKU tab. -/
def skuOut (t : Tables) (s e : Ts) : SkuOut :=
  { live := liveCount t.homes
    fp := fpCount t.catalogue
    fpPct := fpPctDisplay t.homes t.catalogue
    top := topProjects (cvOf t.visits s e) }

/-! ### Demand tab (app.py lines 162–170) -/

/-- `nunique` over a column with missing values: missing entries do not count. -/
def nuniqueOpt (l : List (Option String)) : Nat :=
  (l.filterMap id).dedup.length

/-- The three funnel values. -/
structure DemandOut where
  buyerLeads : Nat
  visitorsScheduled : Nat
  visitorsCompleted : Nat
deriving DecidableEq, Repr

/-- The demand tab. -/
def demandOut (t : Tables) (s e : Ts) : DemandOut :=
  { buyerLeads := nuniqueOpt ((t.buyers.filter (fun b =>
      inRange b.createdOn s e)).map (fun b => b.contactPhone))
    visitorsScheduled := nuniqueOpt ((cvOf t.visits s e).map (fun v => v.leadPhone))
    visitorsCompleted :=
      nuniqueOpt ((cvCompOf (cvOf t.visits s e)).map (fun v => v.leadPhone)) }

/-! ### The full rendering pass as a state-passing pipeline -/

/-- Everything one rendering pass puts on screen. -/
structure AppOut where
  leaderboard : List Row
  supply : SupplyOut
  sku : SkuOut
  demand : DemandOut

/-- The Leaderboard tab: its output, and the tables as they stand afterwards. -/
def leaderboardTab (t : Tables) (mi : ManualInputs) (s e : Ts) :
    List Row × Tables :=
  (leaderboardRows t mi s e, t)

/-- The Supply tab as a state-passing computation. -/
def supplyTab (t : Tables) (s e ps pe : Ts) : SupplyOut × Tables :=
  (supplyOut t s e ps pe, t)

/-- The SKU tab as a state-passing computation. -/
def skuTab (t : Tables) (s e : Ts) : SkuOut × Tables :=
  (skuOut t s e, t)

/-- The Demand tab as a state-passing computation. -/
def demandTab (t : Tables) (s e : Ts) : DemandOut × Tables :=
  (demandOut t s e, t)

/-- One full rendering pass: derive the period and the previous period from the
selected dates (app.py lines 54–59), then run the four tabs in order, threading
the loaded tables through. -/
def runApp (t : Tables) (mi : ManualInputs) (startDay endDay : Int) :
    AppOut × Tables :=
  let s : Ts := ⟨startDay, 0⟩
  let e : Ts := ⟨endDay, 0⟩
  let periodDays : Int := endDay - startDay + 1
  let ps : Ts := ⟨startDay - periodDays, 0⟩
  let pe : Ts := ⟨startDay - 1, 0⟩
  let (lb, t1) := leaderboardTab t mi s e
  let (su, t2) := supplyTab t1 s e ps pe
  let (sk, t3) := skuTab t2 s e
  let (de, t4) := demandTab t3 s e
  ({ leaderboard := lb, supply := su, sku := sk, demand := de }, t4)

/-! ### Claim-side definitions, stated from the spec's words for comparison -/

/-- The inspection component as the spec describes it: four points per period
inspection whose (present) inspector field resolves to the agent. Stated from
the spec for comparison with `seriesGet` over `insSeries`. -/
def insClaimPts (m : List (String × String)) (ci : List Inspection) (p : String) : Int :=
  4 * ((ci.countP (fun i =>
    match i.inspectedBy with
    | some r => getNameStr m r == p
    | none => false)) : Int)

/-- The completed-visit points as the spec describes them: every completed
in-period visit contributes to its own resolved lead owner, weighted 7 when its
lead phone has more than one visit record across periods (the glossary's RV)
and 3 otherwise. Stated from the spec for comparison with `loPts`. -/
def specLoPts (m : List (String × String)) (visits cvComp : List Visit)
    (p : String) : Int :=
  ((cvComp.filter (fun v => getName m v.leadOwner == p)).map (fun v =>
    match v.leadPhone with
    | some ph =>
        if 1 < visits.countP (fun w => w.leadPhone == some ph) then (7 : Int) else 3
    | none => 3)).sum

/-! ### Concrete data used by counterexamples and witnesses -/

/-- A one-admin table used by several concrete instances. -/
def aliceAdmins : List Admin := [⟨"alice@x.com", "Alice"⟩]

/-- A completed in-period visit builder: phone, day, time-of-day, lead owner. -/
def mkCompletedVisit (ph : String) (d : Int) (tod : Nat) (owner : String) : Visit :=
  { leadPhone := some ph, scheduledDate := some ⟨d, tod⟩,
    visitStatus := some "🏁 Completed", visitCompleted := true,
    leadOwner := some owner, vaName := none, homesVisited := none }

/-- C1 counterexample data: two period inspections whose distinct raw inspector
strings both resolve to the admin `Alice`. -/
def c1xIns : List Inspection :=
  [⟨some ⟨2, 0⟩, some "alice@x.com"⟩, ⟨some ⟨3, 0⟩, some " ALICE@x.com"⟩]

/-- C1 witness data: a single period inspection by `alice@x.com`. -/
def c1wIns : List Inspection := [⟨some ⟨2, 0⟩, some "alice@x.com"⟩]

/-- C2 counterexample data: one phone with two completed visits in the period
on different days. -/
def c2xVisits : List Visit :=
  [mkCompletedVisit "7" 5 0 "alice@x.com", mkCompletedVisit "7" 6 0 "alice@x.com"]

/-- C3 counterexample data: one phone with two completed visits in the period
on the same calendar day. -/
def c3xVisits : List Visit :=
  [mkCompletedVisit "7" 5 0 "alice@x.com", mkCompletedVisit "7" 5 1 "alice@x.com"]

/-- C5 counterexample data: one completed visit inside the period and one
completed visit of the same phone before it. -/
def c5xVisitIn : Visit := mkCompletedVisit "7" 5 0 "alice@x.com"

/-- The pre-period completed visit of the same phone. -/
def c5xVisitPast : Visit := mkCompletedVisit "7" 0 0 "alice@x.com"

/-- C7 witness data: a small but non-empty table state. -/
def c7wTables : Tables :=
  { owners := [⟨some ⟨3, 0⟩⟩]
    visits := [mkCompletedVisit "7" 5 0 "alice@x.com"]
    buyers := [⟨some ⟨4, 0⟩, some "9"⟩]
    inspections := [⟨some ⟨2, 0⟩, some "alice@x.com"⟩]
    homes := [⟨some ⟨1, 0⟩, none, some "Live", some 85⟩]
    catalogue := [⟨some "https://img/fp.png"⟩]
    priceHist := []
    offers := []
    admins := aliceAdmins }

/-- C7 witness data: concrete manual inputs. -/
def c7wManual : ManualInputs :=
  { tourPts := 20, ratingPts := 10, tours := fun _ => 0, ratings := fun _ => 0 }

/-! ## Helper lemmas -/

/-- `find?` on a list split around the first satisfying element. -/
theorem find_first_in_append {α : Type} (p : α → Bool) (pre : List α) (a : α)
    (post : List α) (hpre : ∀ x ∈ pre, p x = false) (ha : p a = true) :
    (pre ++ a :: post).find? p = some a := by
  induction pre with
  | nil => simp [List.find?_cons_of_pos, ha]
  | cons x xs ih =>
      rw [List.cons_append, List.find?_cons_of_neg _ (by simp [hpre x (by simp)])]
      exact ih (fun y hy => hpre y (by simp [hy]))

/-- `inRange` unfolded to a proposition. -/
theorem inRange_iff (d : Option Ts) (s e : Ts) :
    inRange d s e = true ↔ ∃ t, d = some t ∧ tsLe s t = true ∧ tsLe t e = true := by
  cases d with
  | none => simp [inRange]
  | some t => simp [inRange, Bool.and_eq_true]

/-- `beforeStart` unfolded to a proposition. -/
theorem beforeStart_iff (d : Option Ts) (s : Ts) :
    beforeStart d s = true ↔ ∃ t, d = some t ∧ tsLt t s = true := by
  cases d with
  | none => simp [beforeStart]
  | some t => simp [beforeStart]

/-- Non-emptiness of a filtered list as an existential. -/
theorem filter_not_empty_iff {α : Type} (l : List α) (q : α → Bool) :
    (!(l.filter q).isEmpty) = true ↔ ∃ a ∈ l, q a = true := by
  rw [Bool.not_eq_true', List.isEmpty_eq_false_iff_exists_mem]
  constructor
  · rintro ⟨a, ha⟩
    exact ⟨a, (List.mem_filter.mp ha).1, (List.mem_filter.mp ha).2⟩
  · rintro ⟨a, hl, hq⟩
    exact ⟨a, List.mem_filter.mpr ⟨hl, hq⟩⟩

/-- Summing the second components of the matching entries of a mapped list,
rewritten as a sum over the original list. -/
theorem filter_map_sum {α : Type} (l : List α) (g : α → String × Int) (p : String) :
    (((l.map g).filter (fun x => x.1 == p)).map (fun x => x.2)).sum =
      (l.map (fun a => if (g a).1 == p then (g a).2 else 0)).sum := by
  induction l with
  | nil => rfl
  | cons a tl ih =>
      simp only [List.map_cons, List.filter_cons]
      cases h : (g a).1 == p with
      | true => simp [h, ih]
      | false => simp [h, ih]

/-- Membership in the groupby keys of `Inspected By`. -/
theorem mem_insRaws {ci : List Inspection} {r : String} :
    r ∈ insRaws ci ↔ ∃ i ∈ ci, i.inspectedBy = some r := by
  simp [insRaws, List.mem_dedup, List.mem_filterMap]

/-- When no two distinct raw inspector values resolve to the same name,
`ins_pts.get(p, 0)` is the scalar the spec describes. -/
theorem seriesGet_insSeries (m : List (String × String)) (ci : List Inspection)
    (p : String)
    (hinj : ∀ r1 ∈ insRaws ci, ∀ r2 ∈ insRaws ci,
      getNameStr m r1 = getNameStr m r2 → r1 = r2) :
    seriesGet (insSeries m ci) p 0 = PdVal.scalar (insClaimPts m ci p) := by
  have hfil : (insSeries m ci).filter (fun x => x.1 == p) =
      ((insRaws ci).filter (fun r => getNameStr m r == p)).map
        (fun r => (getNameStr m r,
          4 * (ci.countP (fun i => i.inspectedBy == some r) : Int))) := by
    unfold insSeries
    rw [List.filter_map]
    rfl
  unfold seriesGet
  rw [hfil]
  rcases hsel : (insRaws ci).filter (fun r => getNameStr m r == p) with _ | ⟨r, rest⟩
  · have hz : ci.countP (fun i =>
        match i.inspectedBy with
        | some r0 => getNameStr m r0 == p
        | none => false) = 0 := by
      rw [List.countP_eq_zero]
      intro i hi hpred
      cases hib : i.inspectedBy with
      | none => rw [hib] at hpred; exact absurd hpred (by simp)
      | some r0 =>
          rw [hib] at hpred
          have hr0 : r0 ∈ insRaws ci := mem_insRaws.mpr ⟨i, hi, hib⟩
          have hmemf : r0 ∈ (insRaws ci).filter (fun r => getNameStr m r == p) :=
            List.mem_filter.mpr ⟨hr0, hpred⟩
          rw [hsel] at hmemf
          exact absurd hmemf (List.not_mem_nil r0)
    unfold insClaimPts
    rw [hz]
    norm_num [pdOfMatches]
  · rcases rest with _ | ⟨r2, rest2⟩
    · have hrmem : r ∈ (insRaws ci).filter (fun x => getNameStr m x == p) := by
        rw [hsel]; exact List.mem_cons_self _ _
      have hr1 := List.mem_filter.mp hrmem
      have hrp : getNameStr m r = p := by simpa using hr1.2
      have hcnt : ci.countP (fun i =>
          match i.inspectedBy with
          | some r0 => getNameStr m r0 == p
          | none => false) = ci.countP (fun i => i.inspectedBy == some r) := by
        apply List.countP_congr
        intro i hi
        cases hib : i.inspectedBy with
        | none => simp [hib]
        | some s0 =>
            simp only [hib]
            constructor
            · intro hp0
              have hs0 : getNameStr m s0 = p := by simpa using hp0
              have hs0m : s0 ∈ insRaws ci := mem_insRaws.mpr ⟨i, hi, hib⟩
              have hsr : s0 = r := hinj s0 hs0m r hr1.1 (hs0.trans hrp.symm)
              simp [hsr]
            · intro hp0
              have hsr : s0 = r := by simpa using hp0
              subst hsr
              simpa using hrp
      unfold insClaimPts
      rw [hcnt]
      rfl
    · exfalso
      have hnd : ((insRaws ci).filter (fun x => getNameStr m x == p)).Nodup :=
        (List.nodup_dedup _).filter _
      rw [hsel] at hnd
      have h1 : r ∈ (insRaws ci).filter (fun x => getNameStr m x == p) := by
        rw [hsel]; exact List.mem_cons_self _ _
      have h2 : r2 ∈ (insRaws ci).filter (fun x => getNameStr m x == p) := by
        rw [hsel]; simp
      have hr1 := List.mem_filter.mp h1
      have hr2 := List.mem_filter.mp h2
      have heq : r = r2 := by
        apply hinj r hr1.1 r2 hr2.1
        have e1 : getNameStr m r = p := by simpa using hr1.2
        have e2 : getNameStr m r2 = p := by simpa using hr2.2
        rw [e1, e2]
      have := (List.nodup_cons.mp hnd).1
      exact this (heq ▸ List.mem_cons_self r2 rest2)

/-! ## The claims -/

/-- C4 (counterexample): attribution is not substring matching. The value
`"ms alice@x.com"` contains the admin email `alice@x.com` as a substring (after
trimming and lowercasing), yet `get_name` does not attribute it to `Alice` —
it returns the value unchanged. -/
theorem attribution_substring_cex :
    strContainsSub (lowerTrim "ms alice@x.com") (pyLower "alice@x.com") = true ∧
    ("alice@x.com", "Alice") ∈ emailToName aliceAdmins ∧
    getName (emailToName aliceAdmins) (some "ms alice@x.com") ≠ "Alice" :=
  ⟨by decide, by decide, by decide⟩

/-- C4 (amended): attribution is by exact equality, not substring containment:
if the field value, after trimming and lowercasing, equals the lowercased email
of an entry of the email-to-name map, and no earlier entry's lowercased email
equals it, `get_name` returns that entry's first name. -/
theorem attribution_by_equality (m : List (String × String)) (val : String)
    (pre post : List (String × String)) (e n : String)
    (hm : m = pre ++ (e, n) :: post)
    (hpre : ∀ e' n', (e', n') ∈ pre → pyLower e' ≠ lowerTrim val)
    (he : pyLower e = lowerTrim val) :
    getName m (some val) = n := by
  have hfind : m.find? (fun q => pyLower q.1 == lowerTrim val) = some (e, n) := by
    rw [hm]
    apply find_first_in_append
    · intro x hx
      simpa using hpre x.1 x.2 (by simpa using hx)
    · simpa using he
  simp only [getName, getNameStr, hfind]

/-- C4 (witness): a field value equal to an admin email up to case and
whitespace is attributed to that admin's first name. -/
theorem attribution_by_equality_instance :
    getName (emailToName aliceAdmins) (some "  ALICE@x.com ") = "Alice" :=
  attribution_by_equality (emailToName aliceAdmins) "  ALICE@x.com "
    [] [] "alice@x.com" "Alice" (by decide)
    (fun e' n' h => absurd h (List.not_mem_nil _)) (by decide)

/-- C5 (counterexample): a completed visit scheduled outside the closed period
still changes a period metric — it flips the repeat-visitor classification and
raises the owner's completed-visit points from 3 to 7. -/
theorem outside_period_influences_metric_cex :
    inRange c5xVisitPast.scheduledDate ⟨1, 0⟩ ⟨10, 0⟩ = false ∧
    loPts (emailToName aliceAdmins) [c5xVisitIn, c5xVisitPast]
        (cvCompOf (cvOf [c5xVisitIn, c5xVisitPast] ⟨1, 0⟩ ⟨10, 0⟩)) ⟨1, 0⟩ "Alice" = 7 ∧
    loPts (emailToName aliceAdmins) [c5xVisitIn]
        (cvCompOf (cvOf [c5xVisitIn] ⟨1, 0⟩ ⟨10, 0⟩)) ⟨1, 0⟩ "Alice" = 3 :=
  ⟨by decide, by decide, by decide⟩

/-- C5 (amended): the date filters themselves are inclusive closed-interval:
`cv` holds exactly the visits whose `Scheduled Date` satisfies
`start <= date <= end`, and `ci` exactly the inspections whose `Inspected On`
does — though pre-period completed visits still enter the repeat-visitor
classification. -/
theorem period_filter_membership (visits : List Visit)
    (inspections : List Inspection) (s e : Ts) :
    (∀ v, v ∈ cvOf visits s e ↔
      v ∈ visits ∧ ∃ t, v.scheduledDate = some t ∧
        tsLe s t = true ∧ tsLe t e = true) ∧
    (∀ i, i ∈ ciOf inspections s e ↔
      i ∈ inspections ∧ ∃ t, i.inspectedOn = some t ∧
        tsLe s t = true ∧ tsLe t e = true) := by
  constructor
  · intro v
    rw [cvOf, List.mem_filter, inRange_iff]
  · intro i
    rw [ciOf, List.mem_filter, inRange_iff]

/-- C6: the rendering pass is read-only over the loaded tables: running the
leaderboard, supply, SKU and demand tabs threads the nine tables through
unchanged. -/
theorem tabs_preserve_tables (t : Tables) (mi : ManualInputs) (sd ed : Int) :
    (runApp t mi sd ed).2 = t := rfl

/-- C7: the pipeline is deterministic: equal table contents, equal selected
date range and equal manual inputs give equal leaderboard rows, supply
metrics, SKU metrics and demand-funnel values. -/
theorem pipeline_deterministic (t1 t2 : Tables) (m1 m2 : ManualInputs)
    (s1 s2 e1 e2 : Int) (ht : t1 = t2) (hm : m1 = m2) (hs : s1 = s2)
    (he : e1 = e2) :
    (runApp t1 m1 s1 e1).1 = (runApp t2 m2 s2 e2).1 := by
  subst ht; subst hm; subst hs; subst he; rfl

/-- C7 (witness): determinism at a concrete, non-empty input. -/
theorem pipeline_deterministic_instance :
    (runApp c7wTables c7wManual 1 14).1 = (runApp c7wTables c7wManual 1 14).1 :=
  pipeline_deterministic c7wTables c7wTables c7wManual c7wManual 1 1 14 14
    rfl rfl rfl rfl

/-- C8: the leaderboard holds exactly one row per unique admin first name —
every admin appears, regardless of activity, and no other person gets a row. -/
theorem leaderboard_one_row_per_admin (t : Tables) (mi : ManualInputs)
    (s e : Ts) (p : String) :
    (leaderboardRows t mi s e).countP (fun r => r.person == p) =
      if p ∈ t.admins.map (fun a => a.firstName) then 1 else 0 := by
  have h1 : (leaderboardRows t mi s e).countP (fun r => r.person == p) =
      (firstNamesU t.admins).count p := by
    simp only [leaderboardRows]
    rw [List.countP_map]
    rfl
  rw [h1]
  by_cases hp : p ∈ t.admins.map (fun a => a.firstName)
  · rw [if_pos hp]
    exact List.count_eq_one_of_mem (List.nodup_dedup _) (List.mem_dedup.mpr hp)
  · rw [if_neg hp]
    exact List.count_eq_zero_of_not_mem (fun hc => hp (List.mem_dedup.mp hc))

/-- C9: `get_name` is total with fixed edge behaviour: `"Unknown"` on a missing
value; the first name of the first map entry whose lowercased email equals the
trimmed, lowercased value, when one exists; the value itself, unchanged,
otherwise. -/
theorem getName_edge_behaviour (m : List (String × String)) (val : String) :
    getName m none = "Unknown" ∧
    ((∀ e n, (e, n) ∈ m → pyLower e ≠ lowerTrim val) →
      getName m (some val) = val) ∧
    (∀ pre e n post, m = pre ++ (e, n) :: post →
      (∀ e' n', (e', n') ∈ pre → pyLower e' ≠ lowerTrim val) →
      pyLower e = lowerTrim val → getName m (some val) = n) := by
  refine ⟨rfl, ?_, ?_⟩
  · intro h
    have hfind : m.find? (fun q => pyLower q.1 == lowerTrim val) = none := by
      rw [List.find?_eq_none]
      intro q hq
      simpa using h q.1 q.2 (by simpa using hq)
    simp only [getName, getNameStr, hfind]
  · intro pre e n post hm hpre he
    have hfind : m.find? (fun q => pyLower q.1 == lowerTrim val) = some (e, n) := by
      rw [hm]
      apply find_first_in_append
      · intro x hx
        simpa using hpre x.1 x.2 (by simpa using hx)
      · simpa using he
    simp only [getName, getNameStr, hfind]

/-- C10: the verified-floor-plans percentage never divides by zero — the
denominator `max(live_count, 1)` is positive for every input — and when at
least one home is live it equals the floor-plan count over the live count,
times 100, rounded to one decimal. -/
theorem fp_pct_no_div_by_zero (homes : List Home) (catalogue : List CatalogueRow) :
    (0 : ℚ) < ((max (liveCount homes) 1 : ℕ) : ℚ) ∧
    (1 ≤ liveCount homes →
      fpPctDisplay homes catalogue =
        roundTo1 ((fpCount catalogue : ℚ) / ((liveCount homes : ℕ) : ℚ) * 100)) := by
  constructor
  · have h1 : (1 : ℕ) ≤ max (liveCount homes) 1 := le_max_right _ _
    exact_mod_cast lt_of_lt_of_le Nat.zero_lt_one h1
  · intro h
    unfold fpPctDisplay
    rw [max_eq_left h]

/-- C1 (counterexample): when two distinct raw inspector strings of the period
resolve to the same admin, the re-assigned `ins_pts` index holds duplicate
labels and `Series.get` returns a sub-series, so `Total Score` is not the
scalar four-component sum the claim states. -/
theorem totalScore_claim_cex :
    "Alice" ∈ aliceAdmins.map (fun a => a.firstName) ∧
    totalScore (emailToName aliceAdmins) [] []
        (ciOf c1xIns ⟨1, 0⟩ ⟨10, 0⟩) ⟨1, 0⟩ aliceAdmins 20 10
        (fun _ => 0) (fun _ => 0) "Alice" ≠
      PdVal.scalar (loPts (emailToName aliceAdmins) [] [] ⟨1, 0⟩ "Alice"
        + 4 * (([] : List Visit).countP (fun v => v.vaName == some "Alice") : Int)
        + insClaimPts (emailToName aliceAdmins) (ciOf c1xIns ⟨1, 0⟩ ⟨10, 0⟩) "Alice"
        + manualEntry 20 10 (fun _ => 0) (fun _ => 0) "Alice") :=
  ⟨by decide, by decide⟩

/-- C1 (amended): for every agent of the admins table, provided no two distinct
raw inspector values of the period resolve to the same name, the leaderboard
`Total Score` is the scalar sum of the four components: completed-visit points,
four points per completed visit with the agent as VA name, four points per
period inspection attributed to the agent, and the manual override points. -/
theorem totalScore_amended (m : List (String × String)) (visits cvComp : List Visit)
    (ci : List Inspection) (s : Ts) (admins : List Admin)
    (tourPts ratingPts : Int) (tours ratings : String → Nat) (p : String)
    (hp : p ∈ firstNamesU admins)
    (hinj : ∀ r1 ∈ insRaws ci, ∀ r2 ∈ insRaws ci,
      getNameStr m r1 = getNameStr m r2 → r1 = r2) :
    totalScore m visits cvComp ci s admins tourPts ratingPts tours ratings p =
      PdVal.scalar (loPts m visits cvComp s p
        + 4 * (cvComp.countP (fun v => v.vaName == some p) : Int)
        + insClaimPts m ci p
        + manualEntry tourPts ratingPts tours ratings p) := by
  unfold totalScore
  rw [seriesGet_insSeries m ci p hinj]
  unfold manualGet
  rw [if_pos hp]
  rfl

/-- C1 (witness): the amended decomposition at a concrete input with one
inspection, one admin and non-zero manual counts. -/
theorem totalScore_amended_instance :
    totalScore (emailToName aliceAdmins) [] [] c1wIns ⟨1, 0⟩ aliceAdmins 20 10
        (fun _ => 1) (fun _ => 2) "Alice" =
      PdVal.scalar (loPts (emailToName aliceAdmins) [] [] ⟨1, 0⟩ "Alice"
        + 4 * (([] : List Visit).countP (fun v => v.vaName == some "Alice") : Int)
        + insClaimPts (emailToName aliceAdmins) c1wIns "Alice"
        + manualEntry 20 10 (fun _ => 1) (fun _ => 2) "Alice") :=
  totalScore_amended (emailToName aliceAdmins) [] [] c1wIns ⟨1, 0⟩ aliceAdmins
    20 10 (fun _ => 1) (fun _ => 2) "Alice" (by decide) (by decide)

/-- C2 (counterexample): completed-visit points are not a per-visit sum. A
phone with two completed visits in the period on different days earns its
owner 7 points in the code, while the spec's per-visit weighting (each visit
weighted 7, since the phone has more than one record) would give 14. -/
theorem loPts_per_visit_cex :
    loPts (emailToName aliceAdmins) c2xVisits
        (cvCompOf (cvOf c2xVisits ⟨1, 0⟩ ⟨10, 0⟩)) ⟨1, 0⟩ "Alice" = 7 ∧
    specLoPts (emailToName aliceAdmins) c2xVisits
        (cvCompOf (cvOf c2xVisits ⟨1, 0⟩ ⟨10, 0⟩)) "Alice" = 14 :=
  ⟨by decide, by decide⟩

/-- C2 (amended): completed-visit points are accrued once per distinct lead
phone with completed visits in the period, not per visit: each phone
contributes 7 (repeat, by the code's rule) or 3 (first-time) to the agent
resolved from the lead owner of its first completed in-period visit. -/
theorem loPts_per_phone (m : List (String × String)) (visits cvComp : List Visit)
    (s : Ts) (p : String) :
    loPts m visits cvComp s p =
      ((distinctPhones cvComp).map (fun ph =>
        if ownerOf m cvComp ph == p then
          (if isRv visits cvComp s ph then (7 : Int) else 3)
        else 0)).sum := by
  unfold loPts loData
  rw [filter_map_sum]

/-- C3 (counterexample): a phone with more than one visit record is not
necessarily classified as a repeat visitor: two completed in-period visits on
the same calendar day leave `is_rv` false. -/
theorem repeat_flag_cex :
    "7" ∈ distinctPhones (cvCompOf (cvOf c3xVisits ⟨1, 0⟩ ⟨10, 0⟩)) ∧
    1 < c3xVisits.countP (fun v => v.leadPhone == some "7") ∧
    isRv c3xVisits (cvCompOf (cvOf c3xVisits ⟨1, 0⟩ ⟨10, 0⟩)) ⟨1, 0⟩ "7" = false :=
  ⟨by decide, by decide, by decide⟩

/-- C3 (amended): the repeat flag holds exactly when the phone has a visit
with `Status/Visit Completed` true scheduled strictly before the period start,
or its completed in-period visits fall on more than one distinct calendar
day. -/
theorem isRv_characterization (visits cvComp : List Visit) (s : Ts) (ph : String) :
    isRv visits cvComp s ph = true ↔
      ((∃ v ∈ visits, v.leadPhone = some ph ∧
          (∃ t, v.scheduledDate = some t ∧ tsLt t s = true) ∧
          v.visitCompleted = true) ∨
        1 < (groupDates (groupOf cvComp ph)).length) := by
  unfold isRv pastCompleted
  rw [Bool.or_eq_true, decide_eq_true_eq]
  apply or_congr _ Iff.rfl
  rw [filter_not_empty_iff]
  apply exists_congr
  intro v
  simp [Bool.and_eq_true, beq_iff_eq, beforeStart_iff, and_assoc]

end Jumbo
